import Mathlib

/-!
Verification of the tile-geometry engine of the polar2grid SCMI/AWIPS writer
(`polar2grid/awips/scmi_backend.py`).

The embedding uses exact rational arithmetic (`ℚ`) for the floating-point
coordinate computations of the source, `ℕ`/`ℤ` for the Python integer
computations (Python 2 `/` on ints is floor division, modelled with
`Int.fdiv`; `%` on floats with a positive modulus is modelled with `pymod`),
`Option` for Python `None`, and `Except String` for code paths that raise
exceptions.
-/

/-- Python `a % b` on floats (result has the sign of `b`; for `b > 0` it lies
in `[0, b)`): `a - b * ⌊a / b⌋`. Models the `% cw` / `% ch` expressions in
`LetteredTileGenerator._get_tile_properties`. -/
def pymod (a b : ℚ) : ℚ := a - b * ⌊a / b⌋

/-- `numpy.ndarray.min` on a 1-D array: fold of `min` over the elements
(`0` for the empty array, which numpy rejects; all uses below are guarded by
nonempty-grid hypotheses). -/
def listMin : List ℚ → ℚ
  | [] => 0
  | a :: t => t.foldl min a

/-- `numpy.ndarray.max` on a 1-D array. -/
def listMax : List ℚ → ℚ
  | [] => 0
  | a :: t => t.foldl max a

/-- `int(np.ceil(a / float(b)))` for nonnegative Python ints `a`, `b`:
the exact rational ceiling of `a / b`. -/
def pyCeilDiv (a b : ℕ) : ℕ := (⌈(a : ℚ) / (b : ℚ)⌉).toNat

/-- The grid definition consumed by the tile generators: pixel dimensions,
signed cell sizes and the projected coordinate of the first (upper-left)
pixel center.  Mirrors the fields of `GridDefinition` that
`scmi_backend.py` reads (`height`, `width`, `cell_width`, `cell_height`,
`origin_x`, `origin_y`). -/
structure GridDef where
  height : ℕ
  width : ℕ
  cell_width : ℚ
  cell_height : ℚ
  origin_x : ℚ
  origin_y : ℚ
deriving DecidableEq

/-- Modelled from the spec: `GridDefinition.get_xy_arrays`
(`polar2grid.core.containers`, not under `src/`).  Per the spec's data model
the grid is a rectangular pixel grid with per-axis coordinate arrays of
pixel-center coordinates: column `i` has X coordinate
`origin_x + i * cell_width` (`cell_width > 0`, increasing along columns).
The generators squeeze the 2-D arrays to 1-D (`x[0]`, `y[:, 0]`). -/
def GridDef.xArray (g : GridDef) : List ℚ :=
  (List.range g.width).map fun (i : ℕ) => g.origin_x + (i : ℚ) * g.cell_width

/-- Modelled from the spec: the Y pixel-center coordinate of row `j` is
`origin_y + j * cell_height` (`cell_height` typically negative: rows
increase downward while Y decreases). -/
def GridDef.yArray (g : GridDef) : List ℚ :=
  (List.range g.height).map fun (j : ℕ) => g.origin_y + (j : ℚ) * g.cell_height

/- Closed forms for `listMin` / `listMax` of arithmetic progressions. -/

lemma foldl_min_eq_mem (m : ℚ) (l : List ℚ) : ∀ a : ℚ, (m = a ∨ m ∈ l) → m ≤ a →
    (∀ b ∈ l, m ≤ b) → l.foldl min a = m := by
  induction l with
  | nil =>
    intro a hm ha _
    rcases hm with hm | hm
    · simpa using hm.symm
    · exact absurd hm (List.not_mem_nil m)
  | cons c t ih =>
    intro a hm ha hb
    have hc : m ≤ c := hb c (List.mem_cons_self c t)
    simp only [List.foldl_cons]
    refine ih (min a c) ?_ (le_min ha hc) fun b hbt => hb b (List.mem_cons_of_mem c hbt)
    rcases hm with hm | hm
    · subst hm
      exact Or.inl (min_eq_left hc).symm
    · rcases List.mem_cons.mp hm with hm | hm
      · subst hm
        exact Or.inl (min_eq_right ha).symm
      · exact Or.inr hm

lemma foldl_max_eq_mem (m : ℚ) (l : List ℚ) : ∀ a : ℚ, (m = a ∨ m ∈ l) → a ≤ m →
    (∀ b ∈ l, b ≤ m) → l.foldl max a = m := by
  induction l with
  | nil =>
    intro a hm ha _
    rcases hm with hm | hm
    · simpa using hm.symm
    · exact absurd hm (List.not_mem_nil m)
  | cons c t ih =>
    intro a hm ha hb
    have hc : c ≤ m := hb c (List.mem_cons_self c t)
    simp only [List.foldl_cons]
    refine ih (max a c) ?_ (max_le ha hc) fun b hbt => hb b (List.mem_cons_of_mem c hbt)
    rcases hm with hm | hm
    · subst hm
      exact Or.inl (max_eq_left hc).symm
    · rcases List.mem_cons.mp hm with hm | hm
      · subst hm
        exact Or.inl (max_eq_right ha).symm
      · exact Or.inr hm

lemma listMin_eq_mem (m : ℚ) (l : List ℚ) (hm : m ∈ l) (hb : ∀ b ∈ l, m ≤ b) :
    listMin l = m := by
  cases l with
  | nil => exact absurd hm (List.not_mem_nil m)
  | cons a t =>
    have ha : m ≤ a := hb a (List.mem_cons_self a t)
    refine foldl_min_eq_mem m t a ?_ ha fun b hbt => hb b (List.mem_cons_of_mem a hbt)
    rcases List.mem_cons.mp hm with h | h
    · exact Or.inl h
    · exact Or.inr h

lemma listMax_eq_mem (m : ℚ) (l : List ℚ) (hm : m ∈ l) (hb : ∀ b ∈ l, b ≤ m) :
    listMax l = m := by
  cases l with
  | nil => exact absurd hm (List.not_mem_nil m)
  | cons a t =>
    have ha : a ≤ m := hb a (List.mem_cons_self a t)
    refine foldl_max_eq_mem m t a ?_ ha fun b hbt => hb b (List.mem_cons_of_mem a hbt)
    rcases List.mem_cons.mp hm with h | h
    · exact Or.inl h
    · exact Or.inr h

lemma prog_mem (x0 c : ℚ) (n : ℕ) (i : ℕ) (hi : i < n) :
    x0 + (i : ℚ) * c ∈ (List.range n).map fun (j : ℕ) => x0 + (j : ℚ) * c := by
  exact List.mem_map.mpr ⟨i, List.mem_range.mpr hi, rfl⟩

lemma progMin_nonneg (x0 c : ℚ) (n : ℕ) (hn : 1 ≤ n) (hc : 0 ≤ c) :
    listMin ((List.range n).map fun (j : ℕ) => x0 + (j : ℚ) * c) = x0 := by
  have h0 : x0 + ((0 : ℕ) : ℚ) * c ∈ (List.range n).map fun (j : ℕ) => x0 + (j : ℚ) * c :=
    prog_mem x0 c n 0 (by omega)
  refine listMin_eq_mem x0 _ (by simpa using h0) ?_
  intro b hb
  obtain ⟨j, _, rfl⟩ := List.mem_map.mp hb
  nlinarith [(by positivity : (0 : ℚ) ≤ (j : ℚ))]

lemma progMax_nonneg (x0 c : ℚ) (n : ℕ) (hn : 1 ≤ n) (hc : 0 ≤ c) :
    listMax ((List.range n).map fun (j : ℕ) => x0 + (j : ℚ) * c) = x0 + ((n : ℚ) - 1) * c := by
  have hmem := prog_mem x0 c n (n - 1) (by omega)
  have hcast : ((n - 1 : ℕ) : ℚ) = (n : ℚ) - 1 := by
    push_cast [Nat.cast_sub hn]
    ring
  rw [hcast] at hmem
  refine listMax_eq_mem _ _ hmem ?_
  intro b hb
  obtain ⟨j, hj, rfl⟩ := List.mem_map.mp hb
  have hj2 : (j : ℚ) ≤ (n : ℚ) - 1 := by
    have hjn : j ≤ n - 1 := by
      have := List.mem_range.mp hj
      omega
    have hq : (j : ℚ) ≤ ((n - 1 : ℕ) : ℚ) := by exact_mod_cast hjn
    rw [hcast] at hq
    exact hq
  nlinarith [hj2]

lemma progMin_nonpos (x0 c : ℚ) (n : ℕ) (hn : 1 ≤ n) (hc : c ≤ 0) :
    listMin ((List.range n).map fun (j : ℕ) => x0 + (j : ℚ) * c) = x0 + ((n : ℚ) - 1) * c := by
  have hmem := prog_mem x0 c n (n - 1) (by omega)
  have hcast : ((n - 1 : ℕ) : ℚ) = (n : ℚ) - 1 := by
    push_cast [Nat.cast_sub hn]
    ring
  rw [hcast] at hmem
  refine listMin_eq_mem _ _ hmem ?_
  intro b hb
  obtain ⟨j, hj, rfl⟩ := List.mem_map.mp hb
  have hj2 : (j : ℚ) ≤ (n : ℚ) - 1 := by
    have hjn : j ≤ n - 1 := by
      have := List.mem_range.mp hj
      omega
    have hq : (j : ℚ) ≤ ((n - 1 : ℕ) : ℚ) := by exact_mod_cast hjn
    rw [hcast] at hq
    exact hq
  nlinarith [hj2]

lemma progMax_nonpos (x0 c : ℚ) (n : ℕ) (hn : 1 ≤ n) (hc : c ≤ 0) :
    listMax ((List.range n).map fun (j : ℕ) => x0 + (j : ℚ) * c) = x0 := by
  have h0 : x0 + ((0 : ℕ) : ℚ) * c ∈ (List.range n).map fun (j : ℕ) => x0 + (j : ℚ) * c :=
    prog_mem x0 c n 0 (by omega)
  refine listMax_eq_mem x0 _ (by simpa using h0) ?_
  intro b hb
  obtain ⟨j, _, rfl⟩ := List.mem_map.mp hb
  nlinarith [(by positivity : (0 : ℚ) ≤ (j : ℚ))]

/-- Shifting the argument of `pymod` by an integer multiple of the (nonzero)
modulus does not change the result. -/
lemma pymod_add_int_mul (a : ℚ) (c : ℚ) (k : ℤ) (hc : c ≠ 0) :
    pymod (a + (k : ℚ) * c) c = pymod a c := by
  unfold pymod
  have : (a + (k : ℚ) * c) / c = a / c + (k : ℚ) := by
    field_simp
  rw [this, Int.floor_add_int]
  push_cast
  ring

/-- `pyCeilDiv` computes the usual natural-number ceiling division. -/
lemma pyCeilDiv_eq (a b : ℕ) (hb : 1 ≤ b) : pyCeilDiv a b = (a + b - 1) / b := by
  have hb0 : (0 : ℚ) < (b : ℚ) := by exact_mod_cast hb
  set q : ℕ := (a + b - 1) / b with hq
  have hqb_ge : a ≤ q * b := by
    have h2 := Nat.div_add_mod (a + b - 1) b
    have h3 := Nat.mod_lt (a + b - 1) (show 0 < b by omega)
    have h2i : (b : ℤ) * (q : ℤ) + (((a + b - 1) % b : ℕ) : ℤ) = ((a + b - 1 : ℕ) : ℤ) := by
      exact_mod_cast h2
    have h3i : (((a + b - 1) % b : ℕ) : ℤ) < (b : ℤ) := by exact_mod_cast h3
    have hci : ((a + b - 1 : ℕ) : ℤ) = (a : ℤ) + (b : ℤ) - 1 := by
      rw [Nat.cast_sub (show 1 ≤ a + b by omega)]
      push_cast
      ring
    have hcomm : (b : ℤ) * (q : ℤ) = (q : ℤ) * (b : ℤ) := mul_comm _ _
    have hgoal : (a : ℤ) ≤ (q : ℤ) * (b : ℤ) := by linarith
    exact_mod_cast hgoal
  have hup : (a : ℚ) ≤ (q : ℚ) * (b : ℚ) := by exact_mod_cast hqb_ge
  have hBn : q * b ≤ a + b - 1 := Nat.div_mul_le_self (a + b - 1) b
  have hcast : ((a + b - 1 : ℕ) : ℚ) = (a : ℚ) + (b : ℚ) - 1 := by
    rw [Nat.cast_sub (show 1 ≤ a + b by omega)]
    push_cast
    ring
  have hBQ : (q : ℚ) * (b : ℚ) ≤ (a : ℚ) + (b : ℚ) - 1 := by
    calc (q : ℚ) * (b : ℚ) = ((q * b : ℕ) : ℚ) := by push_cast; ring
      _ ≤ ((a + b - 1 : ℕ) : ℚ) := by exact_mod_cast hBn
      _ = (a : ℚ) + (b : ℚ) - 1 := hcast
  have hle : ⌈(a : ℚ) / (b : ℚ)⌉ ≤ (q : ℤ) := by
    rw [Int.ceil_le, div_le_iff₀ hb0]
    push_cast
    exact hup
  have hge : (q : ℤ) ≤ ⌈(a : ℚ) / (b : ℚ)⌉ := by
    have h5 : ((q : ℤ) - 1) < ⌈(a : ℚ) / (b : ℚ)⌉ := by
      rw [Int.lt_ceil, lt_div_iff₀ hb0]
      push_cast
      have hexp : ((q : ℚ) - 1) * (b : ℚ) = (q : ℚ) * (b : ℚ) - (b : ℚ) := by ring
      rw [hexp]
      linarith [hBQ, hb0]
    omega
  have hceil : ⌈(a : ℚ) / (b : ℚ)⌉ = (q : ℤ) := le_antisymm hle hge
  rw [pyCeilDiv, hceil, Int.toNat_natCast]

/-- The result record of `NumberedTileGenerator.__init__` /
`_get_tile_properties` / `_get_xy_arrays` / `_get_xy_scaling_parameters`:
effective tile shape and tile count, total tiles, virtual image shape, the
virtual-image X/Y coordinate arrays, and the X/Y scaling parameters
`(mx, bx, my, by)`. -/
structure NumberedProps where
  rows : ℕ
  cols : ℕ
  tile_shape : ℕ × ℕ
  tile_count : ℕ × ℕ
  total_tiles : ℕ
  image_shape : ℕ × ℕ
  x : List ℚ
  y : List ℚ
  mx : ℚ
  bx : ℚ
  my : ℚ
  b_y : ℚ
deriving DecidableEq

/-- `NumberedTileGenerator._get_tile_properties` (lines 159-166): resolve
tile shape / tile count.  `tile_shape` (if not `None`) is clamped to the
grid dimensions and the count derived by ceiling division; otherwise a
truthy `tile_count` derives the shape; otherwise `ValueError` (the spec's
`GeometryError`). -/
def resolveTileParams (rows cols : ℕ) (tile_shape tile_count : Option (ℕ × ℕ)) :
    Except String ((ℕ × ℕ) × (ℕ × ℕ)) :=
  match tile_shape with
  | some ts =>
    let ts' := (min ts.1 rows, min ts.2 cols)
    .ok (ts', (pyCeilDiv rows ts'.1, pyCeilDiv cols ts'.2))
  | none =>
    match tile_count with
    | some tc => .ok ((pyCeilDiv rows tc.1, pyCeilDiv cols tc.2), tc)
    | none => .error "Either tile_count or tile_shape must be provided"

/-- The "imaginary" grid definition of `_get_xy_arrays` (lines 186-190):
same grid but with `height`/`width` replaced by the virtual
tile-count × tile-shape extents, so X/Y reach the edge of all tiles. -/
def imaginaryGridDef (g : GridDef) (ts tc : ℕ × ℕ) : GridDef :=
  { g with height := ts.1 * tc.1, width := ts.2 * tc.2 }

/-- `NumberedTileGenerator.__init__` for a grid definition: resolve the tile
parameters, build the virtual-image X/Y arrays, fail with `ValueError`
(the spec's `SizeError`) if either axis exceeds the 2^15 signed-16-bit
ceiling (lines 199-204), and record the scaling parameters
`mx = cell_width`, `bx = x.min()`, `my = cell_height`, `by = y.min()`
(lines 207-214). -/
def numberedProps (g : GridDef) (tile_shape tile_count : Option (ℕ × ℕ)) :
    Except String NumberedProps :=
  match resolveTileParams g.height g.width tile_shape tile_count with
  | .error e => .error e
  | .ok (ts, tc) =>
    let xs := (imaginaryGridDef g ts tc).xArray
    let ys := (imaginaryGridDef g ts tc).yArray
    if 2 ^ 15 < xs.length then
      .error "X variable too large for AWIPS-version of 16-bit integer space"
    else if 2 ^ 15 < ys.length then
      .error "Y variable too large for AWIPS-version of 16-bit integer space"
    else
      .ok { rows := g.height, cols := g.width,
            tile_shape := ts, tile_count := tc,
            total_tiles := tc.1 * tc.2,
            image_shape := (ts.1 * tc.1, ts.2 * tc.2),
            x := xs, y := ys,
            mx := g.cell_width, bx := listMin xs,
            my := g.cell_height, b_y := listMin ys }

/-- One `tile_info` of `NumberedTileGenerator._generate_tile_info`
(lines 235-254): row/column pixel offset, tile number
(`_tile_number`: `ty * tile_count[1] + tx + 1`), extent of the tile slice
(`max_row_idx` / `max_col_idx`, clipped at the grid edge) and the data
slice start offsets.  The per-tile X/Y coordinate sub-arrays (`tmp_x`,
`tmp_y`) are slices of the virtual arrays and are not re-recorded here. -/
structure NumTile where
  row_offset : ℕ
  col_offset : ℕ
  number : ℕ
  tile_rows : ℕ
  tile_cols : ℕ
  data_row_start : ℕ
  data_col_start : ℕ
deriving DecidableEq

/-- The loop body of `_generate_tile_info` for tile indices `(ty, tx)`. -/
def numberedTileInfo (rows cols : ℕ) (ts : ℕ × ℕ) (tcols : ℕ) (ty tx : ℕ) : NumTile :=
  { row_offset := ty * ts.1,
    col_offset := tx * ts.2,
    number := ty * tcols + tx + 1,
    tile_rows := min ((ty + 1) * ts.1) rows - ty * ts.1,
    tile_cols := min ((tx + 1) * ts.2) cols - tx * ts.2,
    data_row_start := ty * ts.1,
    data_col_start := tx * ts.2 }

/-- `_generate_tile_info` (with an empty tile cache): the row-major
double loop `for ty in range(tc[0]): for tx in range(tc[1])`. -/
def numberedTileInfos (rows cols : ℕ) (ts tc : ℕ × ℕ) : List NumTile :=
  (List.range tc.1).flatMap fun ty =>
    (List.range tc.2).map fun tx => numberedTileInfo rows cols ts tc.2 ty tx

/-- `tmp_tile[tile_slices] = data[data_slices]` acting on the mask of the
shared intermediate tile buffer: inside the tile slice the mask comes from
the data; outside it the previous buffer contents (initially unmasked
fill) are left untouched. -/
def writeTmpTile (tmp dataMask : ℕ → ℕ → Bool) (t : NumTile) : ℕ → ℕ → Bool :=
  fun r c =>
    if r < t.tile_rows ∧ c < t.tile_cols then
      dataMask (t.data_row_start + r) (t.data_col_start + c)
    else tmp r c

/-- `tmp_tile.mask.all()` over the tile buffer of shape `ts`. -/
def tmpTileAllMasked (tmp : ℕ → ℕ → Bool) (ts : ℕ × ℕ) : Bool :=
  (List.range ts.1).all fun r => (List.range ts.2).all fun c => tmp r c

/-- `NumberedTileGenerator.__call__` (lines 256-273), reduced to the tile
numbers it yields: one shared `tmp_tile` buffer (initially unmasked fill
values from `np.ma.zeros`), per tile overwrite the tile slice with the
data slice, skip the tile iff the whole buffer is masked. -/
def numberedCallEmits (ts : ℕ × ℕ) (tiles : List NumTile) (dataMask : ℕ → ℕ → Bool) :
    List ℕ :=
  (tiles.foldl
    (fun (st : List ℕ × (ℕ → ℕ → Bool)) t =>
      let tmp := writeTmpTile st.2 dataMask t
      if tmpTileAllMasked tmp ts then (st.1, tmp) else (st.1 ++ [t.number], tmp))
    ([], fun _ _ => false)).1

/-- The sector configuration of the lettered scheme, with the lower-left and
upper-right corners already projected into the grid's projection
(`ll_xy = p(*ll_corner)`, `ur_xy = p(*ur_corner)` — the projection `p` is an
external collaborator), the configured cell size `cs` (row height, column
width) and the sub-tile count `st` (rows, cols). -/
structure Sector where
  llx : ℚ
  lly : ℚ
  urx : ℚ
  ury : ℚ
  cs : ℚ × ℚ
  st : ℕ × ℕ
deriving DecidableEq

/-- `shift_x = float(ul_xy[0] - (x.min() - cw / 2.)) % cw` (line 314). -/
def shiftX (g : GridDef) (s : Sector) : ℚ :=
  pymod (s.llx - (listMin g.xArray - |g.cell_width| / 2)) |g.cell_width|

/-- `shift_y = float(ul_xy[1] - (y.max() + ch / 2.)) % ch` (line 315). -/
def shiftY (g : GridDef) (s : Sector) : ℚ :=
  pymod (s.ury - (listMax g.yArray + |g.cell_height| / 2)) |g.cell_height|

/-- `ul_xy[0]` after the alignment shift (line 317). -/
def ulX (g : GridDef) (s : Sector) : ℚ := s.llx - shiftX g s

/-- `ul_xy[1]` after the alignment shift (line 317). -/
def ulY (g : GridDef) (s : Sector) : ℚ := s.ury - shiftY g s

/-- `ur_xy[0]` after the alignment shift (line 320). -/
def urXs (g : GridDef) (s : Sector) : ℚ := s.urx - shiftX g s

/-- `ll_xy[1]` after the alignment shift (line 319). -/
def llYs (g : GridDef) (s : Sector) : ℚ := s.lly - shiftY g s

/-- `fcs_y = np.ceil(float(cs[0]) / st[0])` (line 322), before it is made a
multiple of the pixel size. -/
def fcsY0 (s : Sector) : ℚ := (⌈s.cs.1 / (s.st.1 : ℚ)⌉ : ℤ)

/-- `fcs_x = np.ceil(float(cs[1]) / st[1])` (line 322). -/
def fcsX0 (s : Sector) : ℚ := (⌈s.cs.2 / (s.st.2 : ℚ)⌉ : ℤ)

/-- `max_cols = np.ceil((ur_xy[0] - ul_xy[0]) / fcs_x)` (line 324). -/
def maxCols0 (g : GridDef) (s : Sector) : ℤ := ⌈(urXs g s - ulX g s) / fcsX0 s⌉

/-- `max_rows = np.ceil((ul_xy[1] - ll_xy[1]) / fcs_y)` (line 325). -/
def maxRows0 (g : GridDef) (s : Sector) : ℤ := ⌈(ulY g s - llYs g s) / fcsY0 s⌉

/-- `max_cols = int(np.ceil(max_cols / st[1]) * st[1])` (line 327): no
partial alpha-tiles. -/
def maxColsT (g : GridDef) (s : Sector) : ℤ :=
  ⌈(maxCols0 g s : ℚ) / (s.st.2 : ℚ)⌉ * s.st.2

/-- `max_rows = int(np.ceil(max_rows / st[0]) * st[0])` (line 328). -/
def maxRowsT (g : GridDef) (s : Sector) : ℤ :=
  ⌈(maxRows0 g s : ℚ) / (s.st.1 : ℚ)⌉ * s.st.1

/-- `num_pixels_x = int(np.floor(fcs_x / cw))` (line 331). -/
def numPixelsX (g : GridDef) (s : Sector) : ℤ := ⌊fcsX0 s / |g.cell_width|⌋

/-- `num_pixels_y = int(np.floor(fcs_y / ch))` (line 332). -/
def numPixelsY (g : GridDef) (s : Sector) : ℤ := ⌊fcsY0 s / |g.cell_height|⌋

/-- `fcs_x = num_pixels_x * cw` (line 337): tile cell size as a multiple of
the pixel size. -/
def fcsX (g : GridDef) (s : Sector) : ℚ := (numPixelsX g s : ℚ) * |g.cell_width|

/-- `fcs_y = num_pixels_y * ch` (line 338). -/
def fcsY (g : GridDef) (s : Sector) : ℚ := (numPixelsY g s : ℚ) * |g.cell_height|

/-- `min_col = max(int(np.floor((x.min() - ul_xy[0]) / fcs_x)), 0)`
(line 340). -/
def minCol (g : GridDef) (s : Sector) : ℤ :=
  max ⌊(listMin g.xArray - ulX g s) / fcsX g s⌋ 0

/-- `max_col = min(int(np.floor((x.max() - ul_xy[0]) / fcs_x)), max_cols - 1)`
(line 341). -/
def maxCol (g : GridDef) (s : Sector) : ℤ :=
  min ⌊(listMax g.xArray - ulX g s) / fcsX g s⌋ (maxColsT g s - 1)

/-- `min_row = max(int(np.floor((ul_xy[1] - y.max()) / fcs_y)), 0)`
(line 342). -/
def minRow (g : GridDef) (s : Sector) : ℤ :=
  max ⌊(ulY g s - listMax g.yArray) / fcsY g s⌋ 0

/-- `max_row = min(int(np.floor((ul_xy[1] - y.min()) / fcs_y)), max_rows - 1)`
(line 343). -/
def maxRow (g : GridDef) (s : Sector) : ℤ :=
  min ⌊(ulY g s - listMin g.yArray) / fcsY g s⌋ (maxRowsT g s - 1)

/-- `(max_cols * max_rows) / (st[0] * st[1])` (line 347), Python 2 integer
floor division. -/
def alphaCheck (g : GridDef) (s : Sector) : ℤ :=
  (maxColsT g s * maxRowsT g s).fdiv ((s.st.1 : ℤ) * (s.st.2 : ℤ))

/-- The result record of `LetteredTileGenerator._get_tile_properties`
(lines 350-365). -/
structure LetteredProps where
  num_subtiles : ℕ × ℕ
  tile_shape : ℤ × ℤ
  total_tile_count : ℤ × ℤ
  tile_count : ℤ × ℤ
  total_tiles : ℤ
  image_shape : ℤ × ℤ
  min_col : ℤ
  max_col : ℤ
  min_row : ℤ
  max_row : ℤ
  ul_x : ℚ
  ul_y : ℚ
  mx : ℚ
  bx : ℚ
  my : ℚ
  b_y : ℚ
deriving DecidableEq

/-- `LetteredTileGenerator._get_tile_properties`: raises `ValueError`
("Too many lettered grid cells", the spec's `ConfigError`) when more than
26 alpha cells would be needed (lines 347-348), otherwise records the tile
properties (lines 350-365): `mx = cw`, `bx = ul_xy[0]`, `my = -ch`,
`by = ul_xy[1]`. -/
def letteredProps (g : GridDef) (s : Sector) : Except String LetteredProps :=
  if 26 < alphaCheck g s then
    .error "Too many lettered grid cells (sector cell size too small). Max 26"
  else
    .ok { num_subtiles := s.st,
          tile_shape := (numPixelsY g s, numPixelsX g s),
          total_tile_count := (maxRowsT g s, maxColsT g s),
          tile_count := (maxRow g s - minRow g s + 1, maxCol g s - minCol g s + 1),
          total_tiles := (maxRow g s - minRow g s + 1) * (maxCol g s - minCol g s + 1),
          image_shape := (numPixelsY g s * (maxRow g s - minRow g s + 1),
                          numPixelsX g s * (maxCol g s - minCol g s + 1)),
          min_col := minCol g s, max_col := maxCol g s,
          min_row := minRow g s, max_row := maxRow g s,
          ul_x := ulX g s, ul_y := ulY g s,
          mx := |g.cell_width|, bx := ulX g s,
          my := -|g.cell_height|, b_y := ulY g s }

/-- `LetteredTileGenerator._tile_identifier` (lines 371-377), Python 2
integer floor division/modulo, as the pair (alpha index, sub-tile number);
the emitted string is `"T{letter}{:02d}"` with `letter =
string.ascii_uppercase[alpha]`, injective in this pair. -/
def letteredTileId (st : ℕ × ℕ) (ttc : ℤ × ℤ) (ty tx : ℤ) : ℤ × ℤ :=
  (ty.fdiv (st.1 : ℤ) * (ttc.2.fdiv (st.2 : ℤ)) + tx.fdiv (st.2 : ℤ),
   ty.fmod (st.1 : ℤ) * (st.2 : ℤ) + tx.fmod (st.2 : ℤ) + 1)

/-- One tile of `LetteredTileGenerator._generate_tile_info` (lines 391-427):
identifier, pixel offsets `(gy * ts[0], gx * ts[1])` and projected tile
bounds.  (The per-tile slice bookkeeping of lines 406-423 is data overlap,
not geometry, and is treated separately.) -/
structure LTile where
  id : ℤ × ℤ
  row_offset : ℤ
  col_offset : ℤ
  x_left : ℚ
  x_right : ℚ
  y_top : ℚ
  y_bot : ℚ
deriving DecidableEq

/-- The geometry of the lettered tile at cell `(gy, gx)`
(lines 393-399 of `_generate_tile_info`). -/
def letteredTileAt (g : GridDef) (P : LetteredProps) (gy gx : ℤ) : LTile :=
  { id := letteredTileId P.num_subtiles P.total_tile_count gy gx,
    row_offset := gy * P.tile_shape.1,
    col_offset := gx * P.tile_shape.2,
    x_left := P.ul_x + (gx : ℚ) * (P.tile_shape.2 : ℚ) * |g.cell_width|,
    x_right := (P.ul_x + (gx : ℚ) * (P.tile_shape.2 : ℚ) * |g.cell_width|)
      + (P.tile_shape.2 : ℚ) * |g.cell_width|,
    y_top := P.ul_y - (gy : ℚ) * (P.tile_shape.1 : ℚ) * |g.cell_height|,
    y_bot := (P.ul_y - (gy : ℚ) * (P.tile_shape.1 : ℚ) * |g.cell_height|)
      - (P.tile_shape.1 : ℚ) * |g.cell_height| }

/-- Python `range(a, b + 1)` over integers. -/
def intRange (a b : ℤ) : List ℤ :=
  (List.range (b + 1 - a).toNat).map fun (i : ℕ) => a + (i : ℤ)

/-- `LetteredTileGenerator._generate_tile_info` (lines 391-405), reduced to
the tiles it yields: nested loops over `range(min_row, max_row + 1)` and
`range(min_col, max_col + 1)`; the tile is skipped (`continue`) unless the
half-open X membership `x >= x_left and x < x_right` and Y membership
`y > y_bot and y <= y_top` are each satisfied by at least one source
coordinate. -/
def letteredTiles (g : GridDef) (P : LetteredProps) : List LTile :=
  (intRange P.min_row P.max_row).flatMap fun gy =>
    (intRange P.min_col P.max_col).filterMap fun gx =>
      let t := letteredTileAt g P gy gx
      if (g.xArray.any fun xc => decide (t.x_left ≤ xc) && decide (xc < t.x_right)) &&
         (g.yArray.any fun yc => decide (t.y_bot < yc) && decide (yc ≤ t.y_top)) then
        some t
      else
        none

/-- The tiles produced by a (possibly failed) lettered-scheme construction:
a construction that raised produces no tiles. -/
def letteredTilesE (e : Except String LetteredProps) (g : GridDef) : List LTile :=
  match e with
  | .error _ => []
  | .ok P => letteredTiles g P

/-- Cross-run check: every tile identifier emitted in both runs describes
the same tile (same projected bounds and same pixel offsets). -/
def tilesConsistent (l1 l2 : List LTile) : Bool :=
  l1.all fun t1 => l2.all fun t2 => !(decide (t1.id = t2.id)) || decide (t1 = t2)

/-- The per-product tile loop of `Backend.create_output_from_scene`
(lines 858-876): iterate the tiles the generator yielded; each
`create_tile_output` call either raises (`.error`), returns `None`
(whereupon `RuntimeError("No SCMI tiles were created")` is raised) or
returns a filename; exceptions are caught per tile and either re-raised
(`exit_on_error`) or skipped.  The zero-tile `RuntimeError` check sits
*inside* the loop body, so an empty tile sequence runs no check at all. -/
def productTileLoop {α : Type} (tiles : List α) (write : α → Except String (Option String))
    (exit_on_error : Bool) (acc : List String) : Except String (List String) :=
  match tiles with
  | [] => .ok acc
  | t :: ts =>
    match write t with
    | .error e =>
      if exit_on_error then .error e else productTileLoop ts write exit_on_error acc
    | .ok none =>
      if exit_on_error then .error "No SCMI tiles were created"
      else productTileLoop ts write exit_on_error acc
    | .ok (some fn) => productTileLoop ts write exit_on_error (acc ++ [fn])

lemma numbered_map_number (rows cols : ℕ) (ts : ℕ × ℕ) (C : ℕ) (R : ℕ) :
    ((List.range R).flatMap fun ty => (List.range C).map fun tx =>
        numberedTileInfo rows cols ts C ty tx).map NumTile.number =
      List.range' 1 (R * C) := by
  induction R with
  | zero => simp
  | succ n ih =>
    rw [List.range_succ, List.flatMap_append, List.map_append, ih]
    have hsing : ([n].flatMap fun ty => (List.range C).map fun tx =>
        numberedTileInfo rows cols ts C ty tx) =
        (List.range C).map fun tx => numberedTileInfo rows cols ts C n tx := by
      simp
    rw [hsing, List.map_map]
    have hinner : ((List.range C).map
        (NumTile.number ∘ fun tx => numberedTileInfo rows cols ts C n tx)) =
        (List.range C).map fun x => (1 + n * C) + x := by
      apply List.map_congr_left
      intro tx _
      simp only [Function.comp, numberedTileInfo]
      omega
    rw [hinner, ← List.range'_eq_map_range]
    have happ := List.range'_append 1 (n * C) C 1
    simp only [one_mul] at happ
    rw [show 1 + n * C = 1 + 1 * (n * C) by ring] at hinner ⊢
    have : (1 : ℕ) + 1 * (n * C) = 1 + n * C := by ring
    rw [this]
    have h2 := List.range'_append 1 (n * C) C 1
    simp only [one_mul] at h2
    rw [h2]
    congr 1
    ring

/-- C4: for every grid partitioned by the numbered scheme into
`tile_count = (R, C)` tiles, tiles are generated row-major, tile `(ty, tx)`
receives number `ty * C + tx + 1`, the emitted numbers are exactly
`1, 2, …, R*C` in order (unique, contiguous, strictly increasing), the
generated list has length `R*C`, and the scheme's `total_tiles` equals
`R*C`. -/
theorem numbered_tiles_row_major (rows cols : ℕ) (ts tc : ℕ × ℕ) :
    ((numberedTileInfos rows cols ts tc).map NumTile.number =
        List.range' 1 (tc.1 * tc.2))
    ∧ (numberedTileInfos rows cols ts tc).length = tc.1 * tc.2
    ∧ ((numberedTileInfos rows cols ts tc).map NumTile.number).Pairwise
        (fun a b => a < b)
    ∧ (∀ ty tx : ℕ, ty < tc.1 → tx < tc.2 →
        numberedTileInfo rows cols ts tc.2 ty tx ∈ numberedTileInfos rows cols ts tc
        ∧ (numberedTileInfo rows cols ts tc.2 ty tx).number = ty * tc.2 + tx + 1)
    ∧ (∀ (g : GridDef) (ots otc : Option (ℕ × ℕ)),
        ((numberedProps g ots otc).toOption.map fun P => P.total_tiles) =
          ((numberedProps g ots otc).toOption.map fun P =>
            P.tile_count.1 * P.tile_count.2)) := by
  have hmap := numbered_map_number rows cols ts tc.2 tc.1
  refine ⟨hmap, ?_, ?_, ?_, ?_⟩
  · have := congrArg List.length hmap
    simpa [numberedTileInfos] using this
  · rw [show (numberedTileInfos rows cols ts tc) =
      ((List.range tc.1).flatMap fun ty => (List.range tc.2).map fun tx =>
        numberedTileInfo rows cols ts tc.2 ty tx) from rfl, hmap]
    exact List.pairwise_lt_range' 1 (tc.1 * tc.2)
  · intro ty tx hty htx
    constructor
    · exact List.mem_flatMap.mpr ⟨ty, List.mem_range.mpr hty,
        List.mem_map.mpr ⟨tx, List.mem_range.mpr htx, rfl⟩⟩
    · rfl
  · intro g ots otc
    unfold numberedProps
    cases hres : resolveTileParams g.height g.width ots otc with
    | error e => rfl
    | ok p =>
      obtain ⟨ts2, tc2⟩ := p
      dsimp only
      split_ifs <;> rfl

/-- Witness for C4 at a concrete input: a 3×5 grid tiled 2×2, tile
`(1, 1)` is generated and carries number `1*2 + 1 + 1 = 4`. -/
theorem numbered_tiles_row_major_witness :
    (1 < 2 ∧ 1 < 2)
    ∧ (numberedTileInfo 3 5 (2, 3) 2 1 1 ∈ numberedTileInfos 3 5 (2, 3) (2, 2)
       ∧ (numberedTileInfo 3 5 (2, 3) 2 1 1).number = 1 * 2 + 1 + 1) :=
  ⟨⟨by decide, by decide⟩,
   (numbered_tiles_row_major 3 5 (2, 3) (2, 2)).2.2.2.1 1 1 (by decide) (by decide)⟩

/-- Ceiling division covers: `a ≤ pyCeilDiv a b * b`. -/
lemma le_pyCeilDiv_mul (a b : ℕ) (hb : 1 ≤ b) : a ≤ pyCeilDiv a b * b := by
  rw [pyCeilDiv_eq a b hb]
  have h2 := Nat.div_add_mod (a + b - 1) b
  have h3 := Nat.mod_lt (a + b - 1) (show 0 < b by omega)
  have h2i : (b : ℤ) * (((a + b - 1) / b : ℕ) : ℤ) + (((a + b - 1) % b : ℕ) : ℤ) =
      ((a + b - 1 : ℕ) : ℤ) := by exact_mod_cast h2
  have h3i : (((a + b - 1) % b : ℕ) : ℤ) < (b : ℤ) := by exact_mod_cast h3
  have hci : ((a + b - 1 : ℕ) : ℤ) = (a : ℤ) + (b : ℤ) - 1 := by
    rw [Nat.cast_sub (show 1 ≤ a + b by omega)]
    push_cast
    ring
  have hcomm : (b : ℤ) * (((a + b - 1) / b : ℕ) : ℤ) =
      (((a + b - 1) / b : ℕ) : ℤ) * (b : ℤ) := mul_comm _ _
  have hgoal : (a : ℤ) ≤ (((a + b - 1) / b : ℕ) : ℤ) * (b : ℤ) := by linarith
  exact_mod_cast hgoal

/-- `1 ≤ pyCeilDiv a b` for positive `a`, `b`. -/
lemma one_le_pyCeilDiv (a b : ℕ) (ha : 1 ≤ a) (hb : 1 ≤ b) : 1 ≤ pyCeilDiv a b := by
  rw [pyCeilDiv_eq a b hb]
  rw [Nat.le_div_iff_mul_le (show 0 < b by omega)]
  omega

/-- `pyCeilDiv a b ≤ a` for positive `a`, `b`. -/
lemma pyCeilDiv_le_self (a b : ℕ) (ha : 1 ≤ a) (hb : 1 ≤ b) : pyCeilDiv a b ≤ a := by
  rw [pyCeilDiv_eq a b hb]
  obtain ⟨a', rfl⟩ : ∃ a', a = 1 + a' := ⟨a - 1, by omega⟩
  obtain ⟨b', rfl⟩ : ∃ b', b = 1 + b' := ⟨b - 1, by omega⟩
  have hmul : (1 + a') * (1 + b') = 1 + a' + b' + a' * b' := by ring
  have h1 : 1 + a' + (1 + b') - 1 ≤ (1 + a') * (1 + b') := by omega
  calc (1 + a' + (1 + b') - 1) / (1 + b') ≤ ((1 + a') * (1 + b')) / (1 + b') :=
        Nat.div_le_div_right h1
    _ = 1 + a' := Nat.mul_div_cancel (1 + a') (by omega)

/-- C9 (amended): the numbered scheme's tile-parameter resolution succeeds
iff at least one of tile shape and tile count is supplied; with a tile
shape supplied it is clamped to the grid and the count derived by ceiling
division (a simultaneously supplied tile count is ignored, not an error);
with only a tile count supplied the shape is derived by ceiling division;
with neither supplied it raises (`GeometryError`). -/
theorem numbered_tile_params_exactly_one (rows cols : ℕ) (ots otc : Option (ℕ × ℕ)) :
    ((resolveTileParams rows cols ots otc).isOk = (ots.isSome || otc.isSome))
    ∧ (∀ s : ℕ × ℕ, ots = some s →
        resolveTileParams rows cols ots otc =
          .ok ((min s.1 rows, min s.2 cols),
               (pyCeilDiv rows (min s.1 rows), pyCeilDiv cols (min s.2 cols))))
    ∧ (∀ c : ℕ × ℕ, ots = none → otc = some c →
        resolveTileParams rows cols ots otc =
          .ok ((pyCeilDiv rows c.1, pyCeilDiv cols c.2), c))
    ∧ (ots = none → otc = none →
        resolveTileParams rows cols ots otc =
          .error "Either tile_count or tile_shape must be provided") := by
  refine ⟨?_, ?_, ?_, ?_⟩
  · cases ots with
    | some s => rfl
    | none => cases otc with
      | some c => rfl
      | none => rfl
  · rintro s rfl
    rfl
  · rintro c rfl rfl
    rfl
  · rintro rfl rfl
    rfl

/-- C9 counterexample: supplying *both* a tile shape and a tile count is not
an error — the numbered scheme constructs successfully (the shape takes
precedence), contradicting "supplying anything other than exactly one —
including both — is an error". -/
theorem numbered_tile_params_both_ok :
    (numberedProps ⟨4, 4, 1, -1, 0, 0⟩ (some (2, 2)) (some (3, 3))).isOk = true := by
  have hres : resolveTileParams 4 4 (some (2, 2)) (some (3, 3)) =
      .ok ((2, 2), (2, 2)) := by
    show Except.ok ((min 2 4, min 2 4), (pyCeilDiv 4 (min 2 4), pyCeilDiv 4 (min 2 4))) = _
    norm_num [pyCeilDiv_eq]
  show ((numberedProps ⟨4, 4, 1, -1, 0, 0⟩ (some (2, 2)) (some (3, 3)))).isOk = true
  unfold numberedProps
  rw [show resolveTileParams (GridDef.mk 4 4 1 (-1) 0 0).height
      (GridDef.mk 4 4 1 (-1) 0 0).width (some (2, 2)) (some (3, 3)) =
      .ok ((2, 2), (2, 2)) from hres]
  have hxlen : (imaginaryGridDef ⟨4, 4, 1, -1, 0, 0⟩ (2, 2) (2, 2)).xArray.length = 4 := by
    simp only [GridDef.xArray, imaginaryGridDef, List.length_map, List.length_range]
  have hylen : (imaginaryGridDef ⟨4, 4, 1, -1, 0, 0⟩ (2, 2) (2, 2)).yArray.length = 4 := by
    simp only [GridDef.yArray, imaginaryGridDef, List.length_map, List.length_range]
  dsimp only
  rw [if_neg (by rw [hxlen]; norm_num), if_neg (by rw [hylen]; norm_num)]
  rfl

/-- Witness for the amended C9 theorem: with both parameters supplied the
resolution succeeds and uses the tile shape. -/
theorem numbered_tile_params_exactly_one_witness :
    resolveTileParams 4 6 (some (2, 2)) (some (3, 3)) =
      .ok ((min 2 4, min 2 6), (pyCeilDiv 4 (min 2 4), pyCeilDiv 6 (min 2 6))) :=
  (numbered_tile_params_exactly_one 4 6 (some (2, 2)) (some (3, 3))).2.1 (2, 2) rfl

/-- C10: the numbered scheme clamps the effective tile shape to the grid
dimensions, the derived tile count is the ceiling division of the grid
dimension by the effective shape and is at least 1, and the virtual image
(`tile_shape * tile_count` per axis) covers the whole grid on each axis,
for either way of supplying the parameters. -/
theorem numbered_tile_clamp_and_cover (rows cols : ℕ) (hr : 1 ≤ rows) (hc : 1 ≤ cols) :
    (∀ s : ℕ × ℕ, 1 ≤ s.1 → 1 ≤ s.2 →
      ∃ ts tc : ℕ × ℕ,
        resolveTileParams rows cols (some s) none = .ok (ts, tc)
        ∧ ts.1 ≤ rows ∧ ts.2 ≤ cols
        ∧ tc.1 = pyCeilDiv rows ts.1 ∧ tc.2 = pyCeilDiv cols ts.2
        ∧ 1 ≤ tc.1 ∧ 1 ≤ tc.2
        ∧ rows ≤ ts.1 * tc.1 ∧ cols ≤ ts.2 * tc.2)
    ∧ (∀ c : ℕ × ℕ, 1 ≤ c.1 → 1 ≤ c.2 →
      ∃ ts : ℕ × ℕ,
        resolveTileParams rows cols none (some c) = .ok (ts, c)
        ∧ ts.1 ≤ rows ∧ ts.2 ≤ cols
        ∧ rows ≤ ts.1 * c.1 ∧ cols ≤ ts.2 * c.2) := by
  constructor
  · intro s hs1 hs2
    refine ⟨(min s.1 rows, min s.2 cols),
            (pyCeilDiv rows (min s.1 rows), pyCeilDiv cols (min s.2 cols)),
            rfl, min_le_right _ _, min_le_right _ _, rfl, rfl, ?_, ?_, ?_, ?_⟩
    · exact one_le_pyCeilDiv rows (min s.1 rows) hr (le_min hs1 hr)
    · exact one_le_pyCeilDiv cols (min s.2 cols) hc (le_min hs2 hc)
    · have := le_pyCeilDiv_mul rows (min s.1 rows) (le_min hs1 hr)
      calc rows ≤ pyCeilDiv rows (min s.1 rows) * min s.1 rows := this
        _ = min s.1 rows * pyCeilDiv rows (min s.1 rows) := mul_comm _ _
    · have := le_pyCeilDiv_mul cols (min s.2 cols) (le_min hs2 hc)
      calc cols ≤ pyCeilDiv cols (min s.2 cols) * min s.2 cols := this
        _ = min s.2 cols * pyCeilDiv cols (min s.2 cols) := mul_comm _ _
  · intro c hc1 hc2
    refine ⟨(pyCeilDiv rows c.1, pyCeilDiv cols c.2), rfl,
            pyCeilDiv_le_self rows c.1 hr hc1, pyCeilDiv_le_self cols c.2 hc hc2,
            le_pyCeilDiv_mul rows c.1 hc1, le_pyCeilDiv_mul cols c.2 hc2⟩

/-- Witness for C10: 3×5 grid with tile shape (2, 2): shape clamps to
(2, 2), count is (2, 3), and the 4×6 virtual image covers the 3×5 grid. -/
theorem numbered_tile_clamp_and_cover_witness :
    (1 ≤ 3 ∧ 1 ≤ 5 ∧ 1 ≤ 2)
    ∧ ∃ ts tc : ℕ × ℕ,
        resolveTileParams 3 5 (some (2, 2)) none = .ok (ts, tc)
        ∧ ts.1 ≤ 3 ∧ ts.2 ≤ 5
        ∧ tc.1 = pyCeilDiv 3 ts.1 ∧ tc.2 = pyCeilDiv 5 ts.2
        ∧ 1 ≤ tc.1 ∧ 1 ≤ tc.2
        ∧ 3 ≤ ts.1 * tc.1 ∧ 5 ≤ ts.2 * tc.2 :=
  ⟨⟨by decide, by decide, by decide⟩,
   (numbered_tile_clamp_and_cover 3 5 (by decide) (by decide)).1 (2, 2)
     (by decide) (by decide)⟩

lemma imaginary_xArray_len (g : GridDef) (ts tc : ℕ × ℕ) :
    (imaginaryGridDef g ts tc).xArray.length = ts.2 * tc.2 := by
  simp only [GridDef.xArray, imaginaryGridDef, List.length_map, List.length_range]

lemma imaginary_yArray_len (g : GridDef) (ts tc : ℕ × ℕ) :
    (imaginaryGridDef g ts tc).yArray.length = ts.1 * tc.1 := by
  simp only [GridDef.yArray, imaginaryGridDef, List.length_map, List.length_range]

/-- C6: once the tile parameters are resolved, numbered-scheme construction
fails (the spec's `SizeError`) iff the virtual image — per-axis length
`tile_shape * tile_count`, not the raw grid extent — needs more than `2^15`
index values on the X or the Y axis; when both axes fit, construction
succeeds and the coordinate arrays span the full virtual extent. -/
theorem numbered_virtual_size_check (g : GridDef) (ots otc : Option (ℕ × ℕ))
    (ts tc : ℕ × ℕ)
    (hres : resolveTileParams g.height g.width ots otc = .ok (ts, tc)) :
    ((∃ e, numberedProps g ots otc = .error e) ↔
      (2 ^ 15 < ts.2 * tc.2 ∨ 2 ^ 15 < ts.1 * tc.1))
    ∧ (∀ P, numberedProps g ots otc = .ok P →
        P.x = (List.range (ts.2 * tc.2)).map
            (fun (i : ℕ) => g.origin_x + (i : ℚ) * g.cell_width)
        ∧ P.y = (List.range (ts.1 * tc.1)).map
            (fun (j : ℕ) => g.origin_y + (j : ℚ) * g.cell_height)
        ∧ P.x.length = ts.2 * tc.2 ∧ P.y.length = ts.1 * tc.1) := by
  have hx := imaginary_xArray_len g ts tc
  have hy := imaginary_yArray_len g ts tc
  have hxa : (imaginaryGridDef g ts tc).xArray =
      (List.range (ts.2 * tc.2)).map
        (fun (i : ℕ) => g.origin_x + (i : ℚ) * g.cell_width) := by
    simp only [GridDef.xArray, imaginaryGridDef]
  have hya : (imaginaryGridDef g ts tc).yArray =
      (List.range (ts.1 * tc.1)).map
        (fun (j : ℕ) => g.origin_y + (j : ℚ) * g.cell_height) := by
    simp only [GridDef.yArray, imaginaryGridDef]
  unfold numberedProps
  rw [hres]
  dsimp only
  by_cases h1 : 2 ^ 15 < (imaginaryGridDef g ts tc).xArray.length
  · rw [if_pos h1]
    refine ⟨⟨fun _ => Or.inl (hx ▸ h1), fun _ => ⟨_, rfl⟩⟩, fun P hP => by cases hP⟩
  · rw [if_neg h1]
    by_cases h2 : 2 ^ 15 < (imaginaryGridDef g ts tc).yArray.length
    · rw [if_pos h2]
      refine ⟨⟨fun _ => Or.inr (hy ▸ h2), fun _ => ⟨_, rfl⟩⟩, fun P hP => by cases hP⟩
    · rw [if_neg h2]
      rw [hx] at h1
      rw [hy] at h2
      refine ⟨⟨fun he => absurd he.choose_spec (by simp), fun hor => ?_⟩, ?_⟩
      · exact absurd hor (by push_neg; exact ⟨le_of_not_lt h1, le_of_not_lt h2⟩)
      · intro P hP
        cases hP
        exact ⟨hxa, hya, hxa ▸ (by rw [List.length_map, List.length_range]),
          hya ▸ (by rw [List.length_map, List.length_range])⟩

/-- Witness for C6: a 3×4 grid with tile shape (2, 2) resolves to shape
(2, 2), count (2, 2); both virtual axes are 4 ≤ 2^15, so construction
succeeds with virtual-extent coordinate arrays. -/
theorem numbered_virtual_size_check_witness :
    resolveTileParams (GridDef.mk 3 4 1 (-1) 0 0).height (GridDef.mk 3 4 1 (-1) 0 0).width
        (some (2, 2)) none = .ok ((2, 2), (2, 2))
    ∧ (((∃ e, numberedProps (GridDef.mk 3 4 1 (-1) 0 0) (some (2, 2)) none = .error e) ↔
        (2 ^ 15 < 2 * 2 ∨ 2 ^ 15 < 2 * 2))
      ∧ (∀ P, numberedProps (GridDef.mk 3 4 1 (-1) 0 0) (some (2, 2)) none = .ok P →
          P.x = (List.range (2 * 2)).map
              (fun (i : ℕ) => (GridDef.mk 3 4 1 (-1) 0 0).origin_x +
                (i : ℚ) * (GridDef.mk 3 4 1 (-1) 0 0).cell_width)
          ∧ P.y = (List.range (2 * 2)).map
              (fun (j : ℕ) => (GridDef.mk 3 4 1 (-1) 0 0).origin_y +
                (j : ℚ) * (GridDef.mk 3 4 1 (-1) 0 0).cell_height)
          ∧ P.x.length = 2 * 2 ∧ P.y.length = 2 * 2)) := by
  have hres : resolveTileParams (GridDef.mk 3 4 1 (-1) 0 0).height
      (GridDef.mk 3 4 1 (-1) 0 0).width (some (2, 2)) none = .ok ((2, 2), (2, 2)) := by
    show Except.ok ((min 2 3, min 2 4), (pyCeilDiv 3 (min 2 3), pyCeilDiv 4 (min 2 4))) = _
    norm_num [pyCeilDiv_eq]
  exact ⟨hres, numbered_virtual_size_check (GridDef.mk 3 4 1 (-1) 0 0)
    (some (2, 2)) none (2, 2) (2, 2) hres⟩

/-- C2 at the failing input (code bug): 1×3 grid, tile shape (1, 2)
(resolving to shape (1, 2), count (1, 2)), data mask
`[masked, valid, masked]`.  Tile T002's overlapping source region is the
single pixel (0, 2), which is masked — yet `__call__` emits `[1, 2]`: the
shared `tmp_tile` buffer still holds the unmasked pixel written for T001
outside T002's partial tile slice, so `tmp_tile.mask.all()` is false and
the fully-masked tile is emitted instead of skipped. -/
theorem numbered_masked_tile_emitted :
    numberedCallEmits (1, 2) (numberedTileInfos 1 3 (1, 2) (1, 2))
        (fun _ c => decide (c ≠ 1)) = [1, 2]
    ∧ (numberedTileInfo 1 3 (1, 2) 2 0 1).data_col_start = 2
    ∧ (numberedTileInfo 1 3 (1, 2) 2 0 1).tile_rows = 1
    ∧ (numberedTileInfo 1 3 (1, 2) 2 0 1).tile_cols = 1
    ∧ (fun (_ c : ℕ) => decide (c ≠ 1)) 0 2 = true
    ∧ resolveTileParams 1 3 (some (1, 2)) none = .ok ((1, 2), (1, 2)) := by
  refine ⟨by decide, by decide, by decide, by decide, by decide, ?_⟩
  show Except.ok ((min 1 1, min 2 3), (pyCeilDiv 1 (min 1 1), pyCeilDiv 3 (min 2 3))) = _
  norm_num [pyCeilDiv_eq]

/-- C8 (code bug): when the tile generator yields zero tiles for a product,
the per-product loop of `create_output_from_scene` silently returns an
empty filename list and raises nothing — the
`RuntimeError("No SCMI tiles were created")` check sits inside the loop
body and never runs — contradicting the claim that a zero-tile product is
reported as a runtime error. -/
theorem orchestrator_zero_tiles_silent :
    productTileLoop ([] : List LTile) (fun _ => .ok (some "tile.nc")) true [] = .ok []
    ∧ productTileLoop ([] : List LTile) (fun _ => .ok (some "tile.nc")) false [] = .ok [] :=
  ⟨rfl, rfl⟩

/-- C3 at a failing input (code bug): a 2×2 grid with `cell_width = 1`,
`cell_height = -1`, origin (0, 0), tiled as a single 2×2 tile.  The
numbered scheme records `my = cell_height = -1` and `by = y.min() = -1`,
so reconstructing the Y coordinate at index 0 gives
`0 * my + by = -1`, while the first stored Y pixel coordinate is `0`:
`coordinate = index * m + b` over indices `0..N-1` does not reproduce the
Y axis coordinates in order (`mx = 1`, `bx = 0` do work for X). -/
theorem numbered_scaling_reconstruction_fails :
    ((numberedProps ⟨2, 2, 1, -1, 0, 0⟩ (some (2, 2)) none).toOption.map
        (fun P => ((0 : ℚ) * P.my + P.b_y, P.y.head?, P.my, P.mx, P.bx))) =
      some (-1, some 0, -1, 1, 0) := by
  have hres : resolveTileParams (GridDef.mk 2 2 1 (-1) 0 0).height
      (GridDef.mk 2 2 1 (-1) 0 0).width (some (2, 2)) none = .ok ((2, 2), (1, 1)) := by
    show Except.ok ((min 2 2, min 2 2), (pyCeilDiv 2 (min 2 2), pyCeilDiv 2 (min 2 2))) = _
    norm_num [pyCeilDiv_eq]
  have hys : (imaginaryGridDef ⟨2, 2, 1, -1, 0, 0⟩ (2, 2) (1, 1)).yArray =
      [0, -1] := by
    simp only [GridDef.yArray, imaginaryGridDef]
    norm_num [List.range_succ]
  have hxs : (imaginaryGridDef ⟨2, 2, 1, -1, 0, 0⟩ (2, 2) (1, 1)).xArray =
      [0, 1] := by
    simp only [GridDef.xArray, imaginaryGridDef]
    norm_num [List.range_succ]
  have hminy : listMin [(0 : ℚ), -1] = -1 := by
    show List.foldl min 0 [-1] = -1
    show min (0 : ℚ) (-1) = -1
    rw [min_eq_right (show (-1 : ℚ) ≤ 0 by norm_num)]
  have hminx : listMin [(0 : ℚ), 1] = 0 := by
    show List.foldl min 0 [1] = 0
    show min (0 : ℚ) 1 = 0
    rw [min_eq_left (show (0 : ℚ) ≤ 1 by norm_num)]
  unfold numberedProps
  rw [hres]
  dsimp only
  rw [if_neg (by rw [imaginary_xArray_len]; norm_num),
      if_neg (by rw [imaginary_yArray_len]; norm_num)]
  simp only [Except.toOption, Option.map, hys, hxs, hminy, hminx]
  norm_num

/-- The Python 2 floor division in the 26-cell check is exact: since
`max_rows`/`max_cols` were rounded up to whole multiples of the sub-tile
counts, `(max_cols * max_rows) / (st[0] * st[1])` equals the number of
alpha-cell rows times the number of alpha-cell columns. -/
lemma alphaCheck_eq (g : GridDef) (s : Sector) (h1 : 1 ≤ s.st.1) (h2 : 1 ≤ s.st.2) :
    alphaCheck g s =
      ⌈(maxRows0 g s : ℚ) / (s.st.1 : ℚ)⌉ * ⌈(maxCols0 g s : ℚ) / (s.st.2 : ℚ)⌉ := by
  unfold alphaCheck maxColsT maxRowsT
  have hmul : (⌈(maxCols0 g s : ℚ) / (s.st.2 : ℚ)⌉ * (s.st.2 : ℤ)) *
      (⌈(maxRows0 g s : ℚ) / (s.st.1 : ℚ)⌉ * (s.st.1 : ℤ)) =
      (⌈(maxRows0 g s : ℚ) / (s.st.1 : ℚ)⌉ * ⌈(maxCols0 g s : ℚ) / (s.st.2 : ℚ)⌉) *
        ((s.st.1 : ℤ) * (s.st.2 : ℤ)) := by ring
  rw [hmul, Int.mul_fdiv_cancel]
  have hp1 : (0 : ℤ) < (s.st.1 : ℤ) := by exact_mod_cast h1
  have hp2 : (0 : ℤ) < (s.st.2 : ℤ) := by exact_mod_cast h2
  exact ne_of_gt (mul_pos hp1 hp2)

/-- C5: lettered-scheme construction raises `ConfigError` iff the sector
configuration needs more than 26 whole alpha cells (alpha-cell rows times
alpha-cell columns, after rounding the lettered-grid extent up to whole
alpha cells); a failed construction yields no tiles at all (no partial
scheme); a configuration needing exactly 26 alpha cells is accepted. -/
theorem lettered_alpha_cell_limit (g : GridDef) (s : Sector)
    (h1 : 1 ≤ s.st.1) (h2 : 1 ≤ s.st.2) :
    ((∃ e, letteredProps g s = .error e) ↔
      26 < ⌈(maxRows0 g s : ℚ) / (s.st.1 : ℚ)⌉ * ⌈(maxCols0 g s : ℚ) / (s.st.2 : ℚ)⌉)
    ∧ (∀ e, letteredProps g s = .error e →
        letteredTilesE (letteredProps g s) g = [])
    ∧ (⌈(maxRows0 g s : ℚ) / (s.st.1 : ℚ)⌉ * ⌈(maxCols0 g s : ℚ) / (s.st.2 : ℚ)⌉ = 26 →
        ∃ P, letteredProps g s = .ok P) := by
  have ha := alphaCheck_eq g s h1 h2
  unfold letteredProps
  split_ifs with hcond
  · refine ⟨⟨fun _ => ha ▸ hcond, fun _ => ⟨_, rfl⟩⟩, fun e _ => rfl, fun h26 => ?_⟩
    rw [ha, h26] at hcond
    omega
  · refine ⟨⟨fun he => ?_, fun hgt => ?_⟩, fun e he => he.elim,
      fun _ => ⟨_, rfl⟩⟩
    · obtain ⟨e, he⟩ := he
      exact he.elim
    · rw [← ha] at hgt
      exact absurd hgt hcond

/-- A concrete sector: projected extents (0,0)–(8,8), cell size 4×4,
2×2 sub-tiles. -/
def sectorW : Sector := ⟨0, 0, 8, 8, (4, 4), (2, 2)⟩

/-- A concrete 4×4 grid on the unit pixel lattice with pixel centers at
half-integers, aligned with `sectorW`. -/
def gridW : GridDef := ⟨4, 4, 1, -1, 1/2, 15/2⟩

/-- Witness for C5 at `gridW`/`sectorW` (2×2 sub-tiles). -/
theorem lettered_alpha_cell_limit_witness :
    (1 ≤ sectorW.st.1 ∧ 1 ≤ sectorW.st.2)
    ∧ (((∃ e, letteredProps gridW sectorW = .error e) ↔
        26 < ⌈(maxRows0 gridW sectorW : ℚ) / (sectorW.st.1 : ℚ)⌉ *
          ⌈(maxCols0 gridW sectorW : ℚ) / (sectorW.st.2 : ℚ)⌉)
      ∧ (∀ e, letteredProps gridW sectorW = .error e →
          letteredTilesE (letteredProps gridW sectorW) gridW = [])
      ∧ (⌈(maxRows0 gridW sectorW : ℚ) / (sectorW.st.1 : ℚ)⌉ *
          ⌈(maxCols0 gridW sectorW : ℚ) / (sectorW.st.2 : ℚ)⌉ = 26 →
          ∃ P, letteredProps gridW sectorW = .ok P)) :=
  ⟨⟨by decide, by decide⟩,
   lettered_alpha_cell_limit gridW sectorW (by decide) (by decide)⟩

/-- Membership of a coordinate pair in a lettered tile's bounds, exactly as
tested in `_generate_tile_info` (lines 400-401): `x_left <= x < x_right`
(half-open right) and `y_bot < y <= y_top` (half-open bottom). -/
def inTileBounds (g : GridDef) (P : LetteredProps) (gy gx : ℤ) (xc yc : ℚ) : Prop :=
  ((letteredTileAt g P gy gx).x_left ≤ xc ∧ xc < (letteredTileAt g P gy gx).x_right)
  ∧ ((letteredTileAt g P gy gx).y_bot < yc ∧ yc ≤ (letteredTileAt g P gy gx).y_top)

/-- The `(gy, gx)` cell pairs iterated by `_generate_tile_info`. -/
def cellRange (P : LetteredProps) : List (ℤ × ℤ) :=
  (intRange P.min_row P.max_row).flatMap fun gy =>
    (intRange P.min_col P.max_col).map fun gx => (gy, gx)

lemma halfopen_disjoint_x (b T C : ℚ) (hTC : 0 < T * C) (m n : ℤ) (hmn : m ≠ n)
    (xc : ℚ)
    (h1 : b + (m : ℚ) * T * C ≤ xc ∧ xc < b + (m : ℚ) * T * C + T * C)
    (h2 : b + (n : ℚ) * T * C ≤ xc ∧ xc < b + (n : ℚ) * T * C + T * C) : False := by
  rcases lt_trichotomy m n with h | h | h
  · have hle : (m : ℚ) + 1 ≤ (n : ℚ) := by exact_mod_cast h
    have hp : ((m : ℚ) + 1) * (T * C) ≤ (n : ℚ) * (T * C) :=
      mul_le_mul_of_nonneg_right hle (le_of_lt hTC)
    have e1 : ((m : ℚ) + 1) * (T * C) = (m : ℚ) * T * C + T * C := by ring
    have e2 : (n : ℚ) * (T * C) = (n : ℚ) * T * C := by ring
    rw [e1, e2] at hp
    linarith [h1.2, h2.1]
  · exact hmn h
  · have hle : (n : ℚ) + 1 ≤ (m : ℚ) := by exact_mod_cast h
    have hp : ((n : ℚ) + 1) * (T * C) ≤ (m : ℚ) * (T * C) :=
      mul_le_mul_of_nonneg_right hle (le_of_lt hTC)
    have e1 : ((n : ℚ) + 1) * (T * C) = (n : ℚ) * T * C + T * C := by ring
    have e2 : (m : ℚ) * (T * C) = (m : ℚ) * T * C := by ring
    rw [e1, e2] at hp
    linarith [h2.2, h1.1]

lemma halfopen_disjoint_ytop (b T C : ℚ) (hTC : 0 < T * C) (m n : ℤ) (hmn : m ≠ n)
    (yc : ℚ)
    (h1 : b - (m : ℚ) * T * C - T * C < yc ∧ yc ≤ b - (m : ℚ) * T * C)
    (h2 : b - (n : ℚ) * T * C - T * C < yc ∧ yc ≤ b - (n : ℚ) * T * C) : False := by
  rcases lt_trichotomy m n with h | h | h
  · have hle : (m : ℚ) + 1 ≤ (n : ℚ) := by exact_mod_cast h
    have hp : ((m : ℚ) + 1) * (T * C) ≤ (n : ℚ) * (T * C) :=
      mul_le_mul_of_nonneg_right hle (le_of_lt hTC)
    have e1 : ((m : ℚ) + 1) * (T * C) = (m : ℚ) * T * C + T * C := by ring
    have e2 : (n : ℚ) * (T * C) = (n : ℚ) * T * C := by ring
    rw [e1, e2] at hp
    linarith [h1.2, h2.1]
  · exact hmn h
  · have hle : (n : ℚ) + 1 ≤ (m : ℚ) := by exact_mod_cast h
    have hp : ((n : ℚ) + 1) * (T * C) ≤ (m : ℚ) * (T * C) :=
      mul_le_mul_of_nonneg_right hle (le_of_lt hTC)
    have e1 : ((n : ℚ) + 1) * (T * C) = (n : ℚ) * T * C + T * C := by ring
    have e2 : (m : ℚ) * (T * C) = (m : ℚ) * T * C := by ring
    rw [e1, e2] at hp
    linarith [h2.2, h1.1]

/-- C7: lettered per-tile membership uses half-open intervals per axis
(`x ∈ [x_left, x_right)`, `y ∈ (y_bot, y_top]`), so any coordinate pair
lies within the bounds of at most one tile cell; and a generated cell's
tile is emitted iff some source X coordinate and some source Y coordinate
fall inside its bounds — a tile whose bounds contain no source coordinate
on some axis is skipped. -/
theorem lettered_halfopen_membership (g : GridDef) (P : LetteredProps)
    (hcw : g.cell_width ≠ 0) (hch : g.cell_height ≠ 0)
    (hpx : 0 < P.tile_shape.2) (hpy : 0 < P.tile_shape.1) :
    (∀ gy gx gy' gx' : ℤ, (gy, gx) ≠ (gy', gx') → ∀ xc yc : ℚ,
      inTileBounds g P gy gx xc yc → inTileBounds g P gy' gx' xc yc → False)
    ∧ (∀ gy gx : ℤ, (gy, gx) ∈ cellRange P →
        (letteredTileAt g P gy gx ∈ letteredTiles g P ↔
          (∃ xc ∈ g.xArray, (letteredTileAt g P gy gx).x_left ≤ xc ∧
            xc < (letteredTileAt g P gy gx).x_right) ∧
          (∃ yc ∈ g.yArray, (letteredTileAt g P gy gx).y_bot < yc ∧
            yc ≤ (letteredTileAt g P gy gx).y_top))) := by
  have hcw' : (0 : ℚ) < |g.cell_width| := abs_pos.mpr hcw
  have hch' : (0 : ℚ) < |g.cell_height| := abs_pos.mpr hch
  have hpxQ : (0 : ℚ) < (P.tile_shape.2 : ℚ) := by exact_mod_cast hpx
  have hpyQ : (0 : ℚ) < (P.tile_shape.1 : ℚ) := by exact_mod_cast hpy
  have hK : (0 : ℚ) < (P.tile_shape.2 : ℚ) * |g.cell_width| := mul_pos hpxQ hcw'
  have hH : (0 : ℚ) < (P.tile_shape.1 : ℚ) * |g.cell_height| := mul_pos hpyQ hch'
  constructor
  · intro gy gx gy' gx' hne xc yc h1 h2
    unfold inTileBounds letteredTileAt at h1 h2
    dsimp only at h1 h2
    by_cases hgx : gx = gx'
    · subst hgx
      have hgy : gy ≠ gy' := fun h => hne (by rw [h])
      exact halfopen_disjoint_ytop P.ul_y (P.tile_shape.1 : ℚ) |g.cell_height| hH
        gy gy' hgy yc h1.2 h2.2
    · exact halfopen_disjoint_x P.ul_x (P.tile_shape.2 : ℚ) |g.cell_width| hK
        gx gx' hgx xc h1.1 h2.1
  · intro gy gx hmem
    obtain ⟨gyr, hgyr, hrest⟩ := List.mem_flatMap.mp hmem
    obtain ⟨gxr, hgxr, hpair⟩ := List.mem_map.mp hrest
    injection hpair with h1 h2
    subst h1
    subst h2
    constructor
    · intro ht
      obtain ⟨gy', hgy', hrest'⟩ := List.mem_flatMap.mp ht
      obtain ⟨gx', hgx', hf⟩ := List.mem_filterMap.mp hrest'
      dsimp only at hf
      split at hf
      case isTrue hcond =>
        have heq : letteredTileAt g P gy' gx' = letteredTileAt g P gyr gxr :=
          Option.some.inj hf
        have hx2 : (gx' : ℚ) * ((P.tile_shape.2 : ℚ) * |g.cell_width|) =
            (gxr : ℚ) * ((P.tile_shape.2 : ℚ) * |g.cell_width|) := by
          have h3 := congrArg LTile.x_left heq
          simp only [letteredTileAt] at h3
          linear_combination h3
        have hy2 : (gy' : ℚ) * ((P.tile_shape.1 : ℚ) * |g.cell_height|) =
            (gyr : ℚ) * ((P.tile_shape.1 : ℚ) * |g.cell_height|) := by
          have h3 := congrArg LTile.y_top heq
          simp only [letteredTileAt] at h3
          linear_combination -h3
        have hgx2 : gx' = gxr := by
          have := mul_right_cancel₀ (ne_of_gt hK) hx2
          exact_mod_cast this
        have hgy2 : gy' = gyr := by
          have := mul_right_cancel₀ (ne_of_gt hH) hy2
          exact_mod_cast this
        subst hgx2
        subst hgy2
        rw [Bool.and_eq_true, List.any_eq_true, List.any_eq_true] at hcond
        obtain ⟨⟨xc, hxc, hxb⟩, ⟨yc, hyc, hyb⟩⟩ := hcond
        rw [Bool.and_eq_true, decide_eq_true_eq, decide_eq_true_eq] at hxb hyb
        exact ⟨⟨xc, hxc, hxb⟩, ⟨yc, hyc, hyb⟩⟩
      case isFalse =>
        cases hf
    · rintro ⟨⟨xc, hxc, hxb⟩, ⟨yc, hyc, hyb⟩⟩
      refine List.mem_flatMap.mpr ⟨gyr, hgyr, List.mem_filterMap.mpr ⟨gxr, hgxr, ?_⟩⟩
      dsimp only
      rw [if_pos]
      rw [Bool.and_eq_true, List.any_eq_true, List.any_eq_true]
      exact ⟨⟨xc, hxc, by rw [Bool.and_eq_true, decide_eq_true_eq, decide_eq_true_eq]; exact hxb⟩,
             ⟨yc, hyc, by rw [Bool.and_eq_true, decide_eq_true_eq, decide_eq_true_eq]; exact hyb⟩⟩

/-- A concrete lettered-scheme property record matching `gridW`/`sectorW`:
2×2 sub-tiles, 2×2-pixel tiles, a 4×4 total lettered grid restricted to
cells (0..1)×(0..1). -/
def propsW : LetteredProps :=
  { num_subtiles := (2, 2), tile_shape := (2, 2), total_tile_count := (4, 4),
    tile_count := (2, 2), total_tiles := 4, image_shape := (4, 4),
    min_col := 0, max_col := 1, min_row := 0, max_row := 1,
    ul_x := 0, ul_y := 8, mx := 1, bx := 0, my := -1, b_y := 8 }

/-- Witness for C7 at `gridW`/`propsW`. -/
theorem lettered_halfopen_membership_witness :
    (gridW.cell_width ≠ 0 ∧ gridW.cell_height ≠ 0
      ∧ 0 < propsW.tile_shape.2 ∧ 0 < propsW.tile_shape.1)
    ∧ ((∀ gy gx gy' gx' : ℤ, (gy, gx) ≠ (gy', gx') → ∀ xc yc : ℚ,
        inTileBounds gridW propsW gy gx xc yc →
          inTileBounds gridW propsW gy' gx' xc yc → False)
      ∧ (∀ gy gx : ℤ, (gy, gx) ∈ cellRange propsW →
          (letteredTileAt gridW propsW gy gx ∈ letteredTiles gridW propsW ↔
            (∃ xc ∈ gridW.xArray, (letteredTileAt gridW propsW gy gx).x_left ≤ xc ∧
              xc < (letteredTileAt gridW propsW gy gx).x_right) ∧
            (∃ yc ∈ gridW.yArray, (letteredTileAt gridW propsW gy gx).y_bot < yc ∧
              yc ≤ (letteredTileAt gridW propsW gy gx).y_top)))) :=
  ⟨⟨by norm_num [gridW], by norm_num [gridW], by decide, by decide⟩,
   lettered_halfopen_membership gridW propsW (by norm_num [gridW])
     (by norm_num [gridW]) (by decide) (by decide)⟩

lemma int_mul_self_abs (c : ℚ) (k : ℤ) : ∃ m : ℤ, (k : ℚ) * c = (m : ℚ) * |c| := by
  rcases abs_cases c with ⟨h, _⟩ | ⟨h, _⟩
  · exact ⟨k, by rw [h]⟩
  · exact ⟨-k, by rw [h]; push_cast; ring⟩

/-- Two grids on the same pixel lattice (origins differing by whole pixels)
have X minima differing by a whole number of pixels. -/
lemma xmin_lattice (g1 g2 : GridDef) (hw1 : 1 ≤ g1.width) (hw2 : 1 ≤ g2.width)
    (hcw : g2.cell_width = g1.cell_width)
    (hox : ∃ k : ℤ, g2.origin_x = g1.origin_x + (k : ℚ) * g1.cell_width) :
    ∃ k : ℤ, listMin g2.xArray = listMin g1.xArray + (k : ℚ) * g1.cell_width := by
  obtain ⟨k, hk⟩ := hox
  by_cases hc : 0 ≤ g1.cell_width
  · have e1 : listMin g1.xArray = g1.origin_x :=
      progMin_nonneg g1.origin_x g1.cell_width g1.width hw1 hc
    have e2 : listMin g2.xArray = g2.origin_x :=
      progMin_nonneg g2.origin_x g2.cell_width g2.width hw2 (hcw ▸ hc)
    exact ⟨k, by rw [e1, e2, hk]⟩
  · push_neg at hc
    have e1 : listMin g1.xArray = g1.origin_x + ((g1.width : ℚ) - 1) * g1.cell_width :=
      progMin_nonpos g1.origin_x g1.cell_width g1.width hw1 (le_of_lt hc)
    have e2 : listMin g2.xArray = g2.origin_x + ((g2.width : ℚ) - 1) * g2.cell_width :=
      progMin_nonpos g2.origin_x g2.cell_width g2.width hw2 (le_of_lt (hcw ▸ hc))
    refine ⟨k + (g2.width : ℤ) - (g1.width : ℤ), ?_⟩
    rw [e1, e2, hk, hcw]
    push_cast
    ring

/-- Two grids on the same pixel lattice have Y maxima differing by a whole
number of pixels. -/
lemma ymax_lattice (g1 g2 : GridDef) (hh1 : 1 ≤ g1.height) (hh2 : 1 ≤ g2.height)
    (hch : g2.cell_height = g1.cell_height)
    (hoy : ∃ l : ℤ, g2.origin_y = g1.origin_y + (l : ℚ) * g1.cell_height) :
    ∃ l : ℤ, listMax g2.yArray = listMax g1.yArray + (l : ℚ) * g1.cell_height := by
  obtain ⟨l, hl⟩ := hoy
  by_cases hc : 0 ≤ g1.cell_height
  · have e1 : listMax g1.yArray = g1.origin_y + ((g1.height : ℚ) - 1) * g1.cell_height :=
      progMax_nonneg g1.origin_y g1.cell_height g1.height hh1 hc
    have e2 : listMax g2.yArray = g2.origin_y + ((g2.height : ℚ) - 1) * g2.cell_height :=
      progMax_nonneg g2.origin_y g2.cell_height g2.height hh2 (hch ▸ hc)
    refine ⟨l + (g2.height : ℤ) - (g1.height : ℤ), ?_⟩
    rw [e1, e2, hl, hch]
    push_cast
    ring
  · push_neg at hc
    have e1 : listMax g1.yArray = g1.origin_y :=
      progMax_nonpos g1.origin_y g1.cell_height g1.height hh1 (le_of_lt hc)
    have e2 : listMax g2.yArray = g2.origin_y :=
      progMax_nonpos g2.origin_y g2.cell_height g2.height hh2 (le_of_lt (hch ▸ hc))
    exact ⟨l, by rw [e1, e2, hl]⟩

/-- The sector alignment shift on the X axis is identical for two runs on
the same pixel lattice: the shift argument changes by a whole multiple of
the modulus `cw`. -/
lemma shiftX_lattice (g1 g2 : GridDef) (s : Sector)
    (hw1 : 1 ≤ g1.width) (hw2 : 1 ≤ g2.width)
    (hcw : g2.cell_width = g1.cell_width) (hcw0 : g1.cell_width ≠ 0)
    (hox : ∃ k : ℤ, g2.origin_x = g1.origin_x + (k : ℚ) * g1.cell_width) :
    shiftX g2 s = shiftX g1 s := by
  obtain ⟨k, hk⟩ := xmin_lattice g1 g2 hw1 hw2 hcw hox
  obtain ⟨m, hm⟩ := int_mul_self_abs g1.cell_width k
  unfold shiftX
  rw [hcw, hk]
  have harg : s.llx - (listMin g1.xArray + (k : ℚ) * g1.cell_width - |g1.cell_width| / 2) =
      (s.llx - (listMin g1.xArray - |g1.cell_width| / 2)) + ((-m : ℤ) : ℚ) * |g1.cell_width| := by
    push_cast
    linear_combination -hm
  rw [harg, pymod_add_int_mul _ _ _ (abs_ne_zero.mpr hcw0)]

/-- The sector alignment shift on the Y axis is identical for two runs on
the same pixel lattice. -/
lemma shiftY_lattice (g1 g2 : GridDef) (s : Sector)
    (hh1 : 1 ≤ g1.height) (hh2 : 1 ≤ g2.height)
    (hch : g2.cell_height = g1.cell_height) (hch0 : g1.cell_height ≠ 0)
    (hoy : ∃ l : ℤ, g2.origin_y = g1.origin_y + (l : ℚ) * g1.cell_height) :
    shiftY g2 s = shiftY g1 s := by
  obtain ⟨l, hl⟩ := ymax_lattice g1 g2 hh1 hh2 hch hoy
  obtain ⟨m, hm⟩ := int_mul_self_abs g1.cell_height l
  unfold shiftY
  rw [hch, hl]
  have harg : s.ury - (listMax g1.yArray + (l : ℚ) * g1.cell_height + |g1.cell_height| / 2) =
      (s.ury - (listMax g1.yArray + |g1.cell_height| / 2)) + ((-m : ℤ) : ℚ) * |g1.cell_height| := by
    push_cast
    linear_combination -hm
  rw [harg, pymod_add_int_mul _ _ _ (abs_ne_zero.mpr hch0)]

lemma euclid_unique (q1 r1 q2 r2 m : ℤ) (hm : 0 < m)
    (h : q1 * m + r1 = q2 * m + r2)
    (hr1 : 0 ≤ r1) (hr1' : r1 < m) (hr2 : 0 ≤ r2) (hr2' : r2 < m) :
    q1 = q2 ∧ r1 = r2 := by
  have hq : q1 = q2 := by
    rcases lt_trichotomy q1 q2 with hlt | he | hgt
    · exfalso
      have hs : q1 + 1 ≤ q2 := hlt
      have hmul : (q1 + 1) * m ≤ q2 * m := mul_le_mul_of_nonneg_right hs (le_of_lt hm)
      have he1 : (q1 + 1) * m = q1 * m + m := by ring
      rw [he1] at hmul
      linarith
    · exact he
    · exfalso
      have hs : q2 + 1 ≤ q1 := hgt
      have hmul : (q2 + 1) * m ≤ q1 * m := mul_le_mul_of_nonneg_right hs (le_of_lt hm)
      have he1 : (q2 + 1) * m = q2 * m + m := by ring
      rw [he1] at hmul
      linarith
  subst hq
  exact ⟨rfl, by linarith⟩

lemma mem_intRange_bounds {z a b : ℤ} (h : z ∈ intRange a b) : a ≤ z ∧ z ≤ b := by
  unfold intRange at h
  obtain ⟨i, hi, rfl⟩ := List.mem_map.mp h
  have hi' : (i : ℤ) < b + 1 - a := Int.lt_toNat.mp (List.mem_range.mp hi)
  constructor
  · have : (0 : ℤ) ≤ (i : ℤ) := Int.natCast_nonneg i
    omega
  · omega

lemma mem_intRange_of_bounds {z a b : ℤ} (h1 : a ≤ z) (h2 : z ≤ b) : z ∈ intRange a b := by
  unfold intRange
  refine List.mem_map.mpr ⟨(z - a).toNat, List.mem_range.mpr ?_, ?_⟩
  · omega
  · omega

/-- The lettered tile identifier (alpha index, sub-tile number) is injective
on the generated cell range: nonnegative cells with column index below the
total column count (a multiple of the sub-tile column count). -/
lemma letteredTileId_inj (st : ℕ × ℕ) (ttc : ℤ × ℤ)
    (h1 : 1 ≤ st.1) (h2 : 1 ≤ st.2) (hdvd : (st.2 : ℤ) ∣ ttc.2)
    (ty tx ty' tx' : ℤ)
    (htx : 0 ≤ tx) (htx' : 0 ≤ tx')
    (hxlt : tx < ttc.2) (hxlt' : tx' < ttc.2)
    (heq : letteredTileId st ttc ty tx = letteredTileId st ttc ty' tx') :
    ty = ty' ∧ tx = tx' := by
  have ha0 : (0 : ℤ) < (st.1 : ℤ) := by exact_mod_cast h1
  have hb0 : (0 : ℤ) < (st.2 : ℤ) := by exact_mod_cast h2
  obtain ⟨M, hM⟩ := hdvd
  have hM0 : 0 < M := by nlinarith [lt_of_le_of_lt htx hxlt]
  have hα := congrArg Prod.fst heq
  have hν := congrArg Prod.snd heq
  unfold letteredTileId at hα hν
  dsimp only at hα hν
  rw [Int.fdiv_eq_ediv ty (le_of_lt ha0), Int.fdiv_eq_ediv ty' (le_of_lt ha0),
      Int.fdiv_eq_ediv tx (le_of_lt hb0), Int.fdiv_eq_ediv tx' (le_of_lt hb0),
      Int.fdiv_eq_ediv ttc.2 (le_of_lt hb0)] at hα
  rw [Int.fmod_eq_emod ty (le_of_lt ha0), Int.fmod_eq_emod ty' (le_of_lt ha0),
      Int.fmod_eq_emod tx (le_of_lt hb0), Int.fmod_eq_emod tx' (le_of_lt hb0)] at hν
  have hMdiv : ttc.2 / (st.2 : ℤ) = M := by
    rw [hM, Int.mul_ediv_cancel_left _ (ne_of_gt hb0)]
  rw [hMdiv] at hα
  have hν' : (ty % (st.1 : ℤ)) * (st.2 : ℤ) + tx % (st.2 : ℤ) =
      (ty' % (st.1 : ℤ)) * (st.2 : ℤ) + tx' % (st.2 : ℤ) := by linarith [hν]
  obtain ⟨hνq, hνr⟩ := euclid_unique _ _ _ _ _ hb0 hν'
    (Int.emod_nonneg tx (ne_of_gt hb0)) (Int.emod_lt_of_pos tx hb0)
    (Int.emod_nonneg tx' (ne_of_gt hb0)) (Int.emod_lt_of_pos tx' hb0)
  have hxdlt : tx / (st.2 : ℤ) < M := by
    rw [Int.ediv_lt_iff_lt_mul hb0]
    rw [hM] at hxlt
    linarith [hxlt]
  have hxdlt' : tx' / (st.2 : ℤ) < M := by
    rw [Int.ediv_lt_iff_lt_mul hb0]
    rw [hM] at hxlt'
    linarith [hxlt']
  obtain ⟨hαq, hαr⟩ := euclid_unique _ _ _ _ _ hM0 hα
    (Int.ediv_nonneg htx (le_of_lt hb0)) hxdlt
    (Int.ediv_nonneg htx' (le_of_lt hb0)) hxdlt'
  have hty_eq : ty = ty' := by
    have e1 := Int.ediv_add_emod ty (st.1 : ℤ)
    have e2 := Int.ediv_add_emod ty' (st.1 : ℤ)
    have e3 : (st.1 : ℤ) * (ty / (st.1 : ℤ)) = (st.1 : ℤ) * (ty' / (st.1 : ℤ)) := by
      rw [hαq]
    omega
  have htx_eq : tx = tx' := by
    have e1 := Int.ediv_add_emod tx (st.2 : ℤ)
    have e2 := Int.ediv_add_emod tx' (st.2 : ℤ)
    have e3 : (st.2 : ℤ) * (tx / (st.2 : ℤ)) = (st.2 : ℤ) * (tx' / (st.2 : ℤ)) := by
      rw [hαr]
    omega
  exact ⟨hty_eq, htx_eq⟩

lemma mem_letteredTiles {g : GridDef} {P : LetteredProps} {t : LTile}
    (ht : t ∈ letteredTiles g P) :
    ∃ gy gx : ℤ, P.min_row ≤ gy ∧ gy ≤ P.max_row ∧ P.min_col ≤ gx ∧ gx ≤ P.max_col ∧
      t = letteredTileAt g P gy gx := by
  unfold letteredTiles at ht
  obtain ⟨gy, hgy, hrest⟩ := List.mem_flatMap.mp ht
  obtain ⟨gx, hgx, hf⟩ := List.mem_filterMap.mp hrest
  dsimp only at hf
  split at hf
  · obtain ⟨h1, h2⟩ := mem_intRange_bounds hgy
    obtain ⟨h3, h4⟩ := mem_intRange_bounds hgx
    exact ⟨gy, gx, h1, h2, h3, h4, (Option.some.inj hf).symm⟩
  · exact Option.noConfusion hf

/-- C1: lettered tile geometry is data-independent.  For two runs over the
same sector and sub-tile configuration whose input grids live on the same
underlying pixel lattice (same cell sizes; origins differing by whole
pixels), the pixels-per-tile shape is the same, and every tile identifier
emitted in both runs has identical projected left/right/top/bottom bounds
and identical row/column pixel offsets in both runs. -/
theorem lettered_geometry_data_independent (g1 g2 : GridDef) (s : Sector)
    (hw1 : 1 ≤ g1.width) (hh1 : 1 ≤ g1.height)
    (hw2 : 1 ≤ g2.width) (hh2 : 1 ≤ g2.height)
    (hcw : g2.cell_width = g1.cell_width) (hch : g2.cell_height = g1.cell_height)
    (hcw0 : g1.cell_width ≠ 0) (hch0 : g1.cell_height ≠ 0)
    (hst1 : 1 ≤ s.st.1) (hst2 : 1 ≤ s.st.2)
    (hox : ∃ k : ℤ, g2.origin_x = g1.origin_x + (k : ℚ) * g1.cell_width)
    (hoy : ∃ l : ℤ, g2.origin_y = g1.origin_y + (l : ℚ) * g1.cell_height) :
    ((letteredProps g1 s).toOption.map LetteredProps.tile_shape =
      (letteredProps g2 s).toOption.map LetteredProps.tile_shape)
    ∧ tilesConsistent (letteredTilesE (letteredProps g1 s) g1)
        (letteredTilesE (letteredProps g2 s) g2) = true := by
  have hshx := shiftX_lattice g1 g2 s hw1 hw2 hcw hcw0 hox
  have hshy := shiftY_lattice g1 g2 s hh1 hh2 hch hch0 hoy
  have hulx : ulX g2 s = ulX g1 s := by unfold ulX; rw [hshx]
  have huly : ulY g2 s = ulY g1 s := by unfold ulY; rw [hshy]
  have hurx : urXs g2 s = urXs g1 s := by unfold urXs; rw [hshx]
  have hlly : llYs g2 s = llYs g1 s := by unfold llYs; rw [hshy]
  have hmc0 : maxCols0 g2 s = maxCols0 g1 s := by unfold maxCols0; rw [hurx, hulx]
  have hmr0 : maxRows0 g2 s = maxRows0 g1 s := by unfold maxRows0; rw [huly, hlly]
  have hmcT : maxColsT g2 s = maxColsT g1 s := by unfold maxColsT; rw [hmc0]
  have hmrT : maxRowsT g2 s = maxRowsT g1 s := by unfold maxRowsT; rw [hmr0]
  have hnpx : numPixelsX g2 s = numPixelsX g1 s := by unfold numPixelsX; rw [hcw]
  have hnpy : numPixelsY g2 s = numPixelsY g1 s := by unfold numPixelsY; rw [hch]
  have hac : alphaCheck g2 s = alphaCheck g1 s := by unfold alphaCheck; rw [hmcT, hmrT]
  have hdvd : ((s.st.2 : ℤ)) ∣ maxColsT g1 s := by
    unfold maxColsT
    exact dvd_mul_left _ _
  unfold letteredProps
  rw [hac]
  split_ifs with hcond
  · exact ⟨rfl, rfl⟩
  · constructor
    · simp only [Except.toOption, Option.map]
      rw [hnpx, hnpy]
    · unfold tilesConsistent letteredTilesE
      rw [List.all_eq_true]
      intro t1 ht1
      rw [List.all_eq_true]
      intro t2 ht2
      obtain ⟨gy1, gx1, hb1, hb2, hb3, hb4, rfl⟩ := mem_letteredTiles ht1
      obtain ⟨gy2, gx2, hc1, hc2, hc3, hc4, rfl⟩ := mem_letteredTiles ht2
      dsimp only at hb1 hb2 hb3 hb4 hc1 hc2 hc3 hc4
      by_cases hid : (letteredTileAt g1
          { num_subtiles := s.st, tile_shape := (numPixelsY g1 s, numPixelsX g1 s),
            total_tile_count := (maxRowsT g1 s, maxColsT g1 s),
            tile_count := (maxRow g1 s - minRow g1 s + 1, maxCol g1 s - minCol g1 s + 1),
            total_tiles := (maxRow g1 s - minRow g1 s + 1) * (maxCol g1 s - minCol g1 s + 1),
            image_shape := (numPixelsY g1 s * (maxRow g1 s - minRow g1 s + 1),
                            numPixelsX g1 s * (maxCol g1 s - minCol g1 s + 1)),
            min_col := minCol g1 s, max_col := maxCol g1 s,
            min_row := minRow g1 s, max_row := maxRow g1 s,
            ul_x := ulX g1 s, ul_y := ulY g1 s,
            mx := |g1.cell_width|, bx := ulX g1 s,
            my := -|g1.cell_height|, b_y := ulY g1 s } gy1 gx1).id =
          (letteredTileAt g2
          { num_subtiles := s.st, tile_shape := (numPixelsY g2 s, numPixelsX g2 s),
            total_tile_count := (maxRowsT g2 s, maxColsT g2 s),
            tile_count := (maxRow g2 s - minRow g2 s + 1, maxCol g2 s - minCol g2 s + 1),
            total_tiles := (maxRow g2 s - minRow g2 s + 1) * (maxCol g2 s - minCol g2 s + 1),
            image_shape := (numPixelsY g2 s * (maxRow g2 s - minRow g2 s + 1),
                            numPixelsX g2 s * (maxCol g2 s - minCol g2 s + 1)),
            min_col := minCol g2 s, max_col := maxCol g2 s,
            min_row := minRow g2 s, max_row := maxRow g2 s,
            ul_x := ulX g2 s, ul_y := ulY g2 s,
            mx := |g2.cell_width|, bx := ulX g2 s,
            my := -|g2.cell_height|, b_y := ulY g2 s } gy2 gx2).id
      · have hid' : letteredTileId s.st (maxRowsT g1 s, maxColsT g1 s) gy1 gx1 =
            letteredTileId s.st (maxRowsT g1 s, maxColsT g1 s) gy2 gx2 := by
          have h0 := hid
          simp only [letteredTileAt] at h0
          rw [hmrT, hmcT] at h0
          exact h0
        have hgx10 : (0 : ℤ) ≤ gx1 := le_trans (le_max_right _ 0) hb3
        have hgx20 : (0 : ℤ) ≤ gx2 := le_trans (le_max_right _ 0) hc3
        have hgx1lt : gx1 < maxColsT g1 s := by
          have := le_trans hb4 (min_le_right _ _)
          omega
        have hgx2lt : gx2 < maxColsT g1 s := by
          have h5 : maxCol g2 s ≤ maxColsT g2 s - 1 := min_le_right _ _
          rw [hmcT] at h5
          omega
        obtain ⟨rfl, rfl⟩ := letteredTileId_inj s.st (maxRowsT g1 s, maxColsT g1 s)
          hst1 hst2 hdvd gy1 gx1 gy2 gx2 hgx10 hgx20 hgx1lt hgx2lt hid'
        have hteq : letteredTileAt g1
            { num_subtiles := s.st, tile_shape := (numPixelsY g1 s, numPixelsX g1 s),
              total_tile_count := (maxRowsT g1 s, maxColsT g1 s),
              tile_count := (maxRow g1 s - minRow g1 s + 1, maxCol g1 s - minCol g1 s + 1),
              total_tiles := (maxRow g1 s - minRow g1 s + 1) * (maxCol g1 s - minCol g1 s + 1),
              image_shape := (numPixelsY g1 s * (maxRow g1 s - minRow g1 s + 1),
                              numPixelsX g1 s * (maxCol g1 s - minCol g1 s + 1)),
              min_col := minCol g1 s, max_col := maxCol g1 s,
              min_row := minRow g1 s, max_row := maxRow g1 s,
              ul_x := ulX g1 s, ul_y := ulY g1 s,
              mx := |g1.cell_width|, bx := ulX g1 s,
              my := -|g1.cell_height|, b_y := ulY g1 s } gy1 gx1 =
            letteredTileAt g2
            { num_subtiles := s.st, tile_shape := (numPixelsY g2 s, numPixelsX g2 s),
              total_tile_count := (maxRowsT g2 s, maxColsT g2 s),
              tile_count := (maxRow g2 s - minRow g2 s + 1, maxCol g2 s - minCol g2 s + 1),
              total_tiles := (maxRow g2 s - minRow g2 s + 1) * (maxCol g2 s - minCol g2 s + 1),
              image_shape := (numPixelsY g2 s * (maxRow g2 s - minRow g2 s + 1),
                              numPixelsX g2 s * (maxCol g2 s - minCol g2 s + 1)),
              min_col := minCol g2 s, max_col := maxCol g2 s,
              min_row := minRow g2 s, max_row := maxRow g2 s,
              ul_x := ulX g2 s, ul_y := ulY g2 s,
              mx := |g2.cell_width|, bx := ulX g2 s,
              my := -|g2.cell_height|, b_y := ulY g2 s } gy1 gx1 := by
          simp only [letteredTileAt]
          rw [hnpx, hnpy, hulx, huly, hmcT, hmrT, hcw, hch]
        simp [hid, hteq]
      · simp [hid]

/-- A second 4×4 grid on the same unit pixel lattice as `gridW`, with its
origin shifted by two whole pixels in each axis (a different but
overlapping coordinate extent). -/
def gridW2 : GridDef := ⟨4, 4, 1, -1, 5/2, 11/2⟩

/-- Witness for C1: `gridW` and `gridW2` over `sectorW`. -/
theorem lettered_geometry_data_independent_witness :
    (gridW2.cell_width = gridW.cell_width ∧ gridW2.cell_height = gridW.cell_height
      ∧ gridW.cell_width ≠ 0 ∧ gridW.cell_height ≠ 0
      ∧ (∃ k : ℤ, gridW2.origin_x = gridW.origin_x + (k : ℚ) * gridW.cell_width)
      ∧ (∃ l : ℤ, gridW2.origin_y = gridW.origin_y + (l : ℚ) * gridW.cell_height))
    ∧ (((letteredProps gridW sectorW).toOption.map LetteredProps.tile_shape =
        (letteredProps gridW2 sectorW).toOption.map LetteredProps.tile_shape)
      ∧ tilesConsistent (letteredTilesE (letteredProps gridW sectorW) gridW)
          (letteredTilesE (letteredProps gridW2 sectorW) gridW2) = true) :=
  ⟨⟨rfl, rfl, by norm_num [gridW], by norm_num [gridW],
    ⟨2, by norm_num [gridW, gridW2]⟩, ⟨2, by norm_num [gridW, gridW2]⟩⟩,
   lettered_geometry_data_independent gridW gridW2 sectorW (by decide) (by decide)
     (by decide) (by decide) rfl rfl (by norm_num [gridW]) (by norm_num [gridW])
     (by decide) (by decide) ⟨2, by norm_num [gridW, gridW2]⟩
     ⟨2, by norm_num [gridW, gridW2]⟩⟩
